import Mathlib

/-!
Verification of the typhonjs package/run pipeline against its specification.

The TypeScript sources are shallowly embedded: pure functions become Lean
functions, JavaScript `Map`/object state becomes association lists, the
filesystem becomes an explicit path-to-contents map, and fallible code
returns `Except`/`Option`.  Side-effecting pipelines additionally return the
ordered list of the operations they would perform, so that sequencing
properties (for example, "extraction starts only after both checks pass")
are statable.
-/

namespace Typhon

/-! ### Event model (src/lib/events/Events.ts)

`CancellableEvent` is `\x7b canceled?: boolean \x7d`; the dispatcher tests a
result item with the loose comparison `v.canceled == true`, under which an
absent flag behaves exactly like `false`, so the flag is embedded as `Bool`. -/

structure EventCtx where
  canceled : Bool
deriving DecidableEq

/-- ResolvablePluginInformation from src/lib/plugin/TyphonPlugin.ts. -/
structure PluginInformation where
  name : String
  version : String
deriving DecidableEq

/-- A TyphonPlugin: identity plus its event handler.  The handler receives the
event name and the event payload contexts and returns an array of contexts
(the default implementation in TyphonPlugin.ts returns `args`). -/
structure TyphonPlugin where
  pluginInfo : PluginInformation
  onEvent : String → List EventCtx → List EventCtx

def TyphonPlugin.getPluginInformation (p : TyphonPlugin) : PluginInformation :=
  p.pluginInfo

namespace ArrayUtils

/-- ArrayUtils.filter (src/lib/utils/ArrayUtils.ts): an index loop pushing the
elements that satisfy the predicate, i.e. list filter. -/
def filter (array : List α) (p : α → Bool) : List α :=
  match array with
  | [] => []
  | x :: xs => if p x then x :: filter xs p else filter xs p

/-- ArrayUtils.isEmpty: `!array || array.length === 0` (the embedding has no
null arrays). -/
def isEmpty (array : List α) : Bool :=
  array.length == 0

/-- ArrayUtils.isNotEmpty: `!ArrayUtils.isEmpty(array)`. -/
def isNotEmpty (array : List α) : Bool :=
  !isEmpty array

end ArrayUtils

namespace Collection

/-- JavaScript `Map.prototype.set` on an insertion-ordered association list
(src/lib/utils/Collection.ts extends Map): replace the value at an existing
key in place, otherwise append the new entry. -/
def set : List (String × V) → String → V → List (String × V)
  | [], k, v => [(k, v)]
  | (k₁, v₁) :: rest, k, v =>
      if k₁ = k then (k₁, v) :: rest else (k₁, v₁) :: set rest k v

/-- JavaScript `Map.prototype.get`: first (only) entry with the key. -/
def get : List (String × V) → String → Option V
  | [], _ => none
  | (k₁, v₁) :: rest, k => if k₁ = k then some v₁ else get rest k

end Collection

/-- The plugin registry: `private plugins: Collection<string, TyphonPlugin>`. -/
abbrev PluginRegistry := List (String × TyphonPlugin)

namespace TyphonPluginManager

/-- TyphonPluginManager.registerPlugin (src/unnamed/part_007): after calling the
load hook, `this.plugins.set(plugin.getPluginInformation().name, plugin)`. -/
def registerPlugin (plugins : PluginRegistry) (plugin : TyphonPlugin) : PluginRegistry :=
  Collection.set plugins plugin.getPluginInformation.name plugin

/-- TyphonPluginManager.processPluginEvent (src/unnamed/part_007 middle
revision): run the handler, filter the result for `v.canceled == true`, and
report whether any cancellation was found. -/
def processPluginEvent (plugin : TyphonPlugin) (key : String) (args : List EventCtx) : Bool :=
  let result := plugin.onEvent key args
  let cancelledEvents := ArrayUtils.filter result (fun v => v.canceled == true)
  if ArrayUtils.isNotEmpty cancelledEvents then true else false

/-- TyphonPluginManager.processEvent (src/unnamed/part_007, lines 121-136):
the `for` loop over the registry executes `return this.processPluginEvent(...)`
on its very first iteration, so only the first registered plugin is consulted;
with an empty registry the trailing `return false` is reached. -/
def processEvent (plugins : PluginRegistry) (key : String) (args : List EventCtx) : Bool :=
  match plugins with
  | [] => false
  | (_, plugin) :: _ => processPluginEvent plugin key args

/-- TyphonPluginManager.processPluginEvent in the latest revision of
src/unnamed/part_007 (lines 212-227): `plugin.emit(key, ...args); return true` —
the handler result is discarded and `true` is returned unconditionally. -/
def processPluginEventEmit (plugin : TyphonPlugin) (key : String) (args : List EventCtx) : Bool :=
  let _ := plugin.onEvent key args
  true

/-- The property the specification ascribes to `processEvent`: at least one
registered plugin's handler result contains a cancellation flag set to true. -/
def anyPluginCancels (plugins : PluginRegistry) (key : String) (args : List EventCtx) : Bool :=
  plugins.any (fun e => processPluginEvent e.2 key args)

end TyphonPluginManager

/-- A plugin whose handler cancels nothing (the default handler returns its
arguments unchanged). -/
def passivePlugin : TyphonPlugin :=
  { pluginInfo := { name := "passive", version := "1.0.0" }
    onEvent := fun _ args => args }

/-- A plugin whose handler reports a cancelled context. -/
def cancellingPlugin : TyphonPlugin :=
  { pluginInfo := { name := "canceller", version := "1.0.0" }
    onEvent := fun _ _ => [{ canceled := true }] }

/-- A registry holding a passive plugin first and a cancelling plugin second,
built through registerPlugin as the manager would. -/
def twoPluginRegistry : PluginRegistry :=
  TyphonPluginManager.registerPlugin
    (TyphonPluginManager.registerPlugin [] passivePlugin) cancellingPlugin

/-! ### JSON values and configuration access (src/lib/config/JavaScriptConfiguration.ts)

The pipeline exchanges JSON-shaped records (the archive manifest, the project
configuration).  The byte-level JSON codec is the platform's and out of scope
(the spec delegates archive and serialization codecs); values are embedded as
a tree.  JavaScript numbers appear only in `getBoolean`'s `value !== 0` test,
so an integer model suffices for everything the claims exercise; `null` never
occurs in the configurations the claims quantify over and is omitted. -/

inductive Json
  | str (s : String)
  | bool (b : Bool)
  | num (n : Int)
  | obj (fields : List (String × Json))

/-- JavaScript `String.prototype.split` with a one-character separator, on the
character list: split at every separator occurrence, keeping empty segments. -/
def jsSplitChars (sep : Char) : List Char → List (List Char)
  | [] => [[]]
  | c :: cs =>
      let rest := jsSplitChars sep cs
      if c = sep then [] :: rest
      else
        match rest with
        | r :: rs => (c :: r) :: rs
        | [] => [[c]]

/-- JavaScript `s.split(sep)` for a one-character separator. -/
def strSplit (s : String) (sep : Char) : List String :=
  (jsSplitChars sep s.data).map String.mk

/-- JavaScript `String.prototype.endsWith`, on the character lists. -/
def strEndsWith (s suffix : String) : Bool :=
  suffix.data.isSuffixOf s.data

/-- JavaScriptConfiguration.get: split the key on a dot and walk the value
tree; stepping into anything that is not an object, or reading an absent
property, yields `undefined` (embedded as `none`). -/
def jsGetLoop : List String → Option Json → Option Json
  | [], value => value
  | k :: ks, some (.obj fields) => jsGetLoop ks (Collection.get fields k)
  | _ :: _, _ => none

def jsGet (config : Json) (key : String) : Option Json :=
  jsGetLoop (strSplit key '.') (some config)

/-- JavaScriptConfiguration.getBoolean: a boolean value is returned as is;
certain strings coerce; a number coerces through `value !== 0`; anything else
falls back to the default. -/
def getBoolean (config : Json) (key : String) (defaultValue : Bool) : Bool :=
  match jsGet config key with
  | some (.bool b) => b
  | some (.str s) =>
      let lowercased := s.toLower
      if lowercased = "true" ∨ lowercased = "1" ∨ lowercased = "yes" then true
      else if lowercased = "false" ∨ lowercased = "0" ∨ lowercased = "no" then false
      else defaultValue
  | some (.num n) => decide (n ≠ 0)
  | _ => defaultValue

/-! ### Paths -/

/-- The platform path separator (`path.sep`); the runner and packager run on a
POSIX separator in this embedding. -/
def pathSep : String := "/"

/-- Node `path.join` restricted to two segments as used in this code base:
an empty segment disappears, otherwise the segments are joined with the
separator.  (The segments produced here never carry duplicate or trailing
separators, so no further normalization applies.) -/
def pathJoin (a b : String) : String :=
  if a = "" then b else if b = "" then a else a ++ pathSep ++ b

/-! ### Package manifest (TyphonBuildFile / BuildInfo) -/

/-- The fixed manifest entry name the Runner looks up:
`export const TyphonBuildFile` (src/lib/project/Project.ts line 93, re-exported
through ../types where TyphRunner imports it). -/
def TyphonBuildFile : String := "typhbuild.config.json"

/-- BuildInfo (src/lib/config/JavaScriptConfiguration.ts): the manifest record
embedded in every archive.  `pm` is a string at runtime — the JSON decode
performs no validation, so unsupported values flow through to the install
step. -/
structure BuildInfo where
  name : String
  version : String
  main : String
  pm : String
  deps : List (String × String)
deriving DecidableEq

/-- The JSON shape `JSON.stringify` gives the buildInfo record the Packager
assembles (part_008 lines 233-245): five fields in declaration order, `deps`
an object of version strings. -/
def encodeBuildInfo (b : BuildInfo) : Json :=
  .obj [("name", .str b.name), ("version", .str b.version), ("main", .str b.main),
        ("pm", .str b.pm), ("deps", .obj (b.deps.map (fun e => (e.1, .str e.2))))]

/-- A JavaScript property read interpolated as a string: a missing or
non-string field dereferences to `undefined`. -/
def jsonFieldString (fields : List (String × Json)) (k : String) : String :=
  match Collection.get fields k with
  | some (.str s) => s
  | _ => "undefined"

/-- The unchecked `JSON.parse(...) as BuildInfo` cast of TyphRunner.runTyph:
fields are read off the parsed object without validation.  (On a manifest
missing its fields the real code would crash later when iterating `deps`; the
claims only exercise decode on manifests the Packager wrote, where every
field is present.) -/
def decodeBuildInfo : Json → BuildInfo
  | .obj fields =>
      { name := jsonFieldString fields "name"
        version := jsonFieldString fields "version"
        main := jsonFieldString fields "main"
        pm := jsonFieldString fields "pm"
        deps :=
          match Collection.get fields "deps" with
          | some (.obj ds) =>
              ds.map (fun e => (e.1, match e.2 with | .str s => s | _ => "undefined"))
          | _ => [] }
  | _ => { name := "undefined", version := "undefined", main := "undefined",
           pm := "undefined", deps := [] }

/-! ### Archive (the .typh zip container) -/

/-- A zip archive as its ordered entry list; entry data already decoded from
the delegated byte codec. -/
structure ZipArchive where
  entries : List (String × Json)

/-- AdmZip `getEntry`: look an entry up by name. -/
def ZipArchive.getEntry (zip : ZipArchive) (name : String) : Option Json :=
  Collection.get zip.entries name

/-! ### CachingManager (src/unnamed/part_006) -/

/-- The caching manager's state: `cacheDirPath = path(_TYPHON_HOMEDIR_PATH_, "cache")`. -/
structure CachingManager where
  cacheDirPath : String

/-- CachingManager.ensureCacheDirectory: creates (idempotently) and returns
`cacheDirPath/name`. -/
def CachingManager.ensureCacheDirectory (c : CachingManager) (name : String) : String :=
  pathJoin c.cacheDirPath name

/-! ### TyphRunner (src/lib/config/JavaScriptConfiguration.ts lines 420-519) -/

/-- The call `version.replaceAll("^", "")`: every occurrence of the
one-character string is removed. -/
def replaceAllCaret (version : String) : String :=
  String.mk (version.data.filter (fun c => c ≠ '^'))

namespace TyphRunner

/-- TyphRunner.dependenciesToArray: each declared dependency becomes the
specifier `name@version` with all carets removed from the version. -/
def dependenciesToArray (dependencies : List (String × String)) : List String :=
  dependencies.map (fun e => e.1 ++ "@" ++ replaceAllCaret e.2)

/-- TyphRunner.getInstallCommand: the source `switch` compares the package
manager value against "pnpm", "yarn" and "npm" in that order and returns
`null` on the default branch. -/
def getInstallCommand (pm : String) (dirPath : String) (deps : List String) : Option String :=
  if pm = "pnpm" then
    some ("pnpm install --prefix " ++ dirPath ++ " " ++ String.intercalate " " deps)
  else if pm = "yarn" then
    some ("yarn install --modules-folder " ++ dirPath ++ "/node_modules " ++ String.intercalate " " deps)
  else if pm = "npm" then
    some ("npm install --prefix " ++ dirPath ++ " " ++ String.intercalate " " deps)
  else
    none

/-- TyphRunner.installDependencies: ensure the shared vendor store, compute the
install command, throw on a null command, otherwise execute it.  The result
carries the shell command handed to `execShellCommand`. -/
def installDependencies (buildInfo : BuildInfo) (dependencies : List (String × String))
    (vendorPath : String) : Except String String :=
  match getInstallCommand buildInfo.pm vendorPath (dependenciesToArray dependencies) with
  | none => .error ("Unsupported package manager: " ++ buildInfo.pm)
  | some installCmd => .ok installCmd

/-- One side-effecting operation of a run, in execution order. -/
inductive RunStep
  | extract (targetPath : String)
  | install (cmd : String)
  | runMain (cmd : String) (nodePath : String)
deriving DecidableEq

/-- TyphRunner.runTyph: reject a name not ending in ".typh"; open the archive
and look up the fixed manifest entry, rejecting when absent; decode the
manifest; then extract into the cache directory and install the dependencies
(concurrently — both must succeed), and finally execute the main file with
the vendor `node_modules` on NODE_PATH.  The success value is the ordered
list of operations performed. -/
def runTyph (cache : CachingManager) (vendorPath : String) (file : String)
    (zip : ZipArchive) : Except String (List RunStep) :=
  if !strEndsWith file ".typh" then
    .error "Unknown file extension: .typh required."
  else
    match zip.getEntry TyphonBuildFile with
    | none => .error "No build entry found in typh file."
    | some entryData =>
        let buildInfo := decodeBuildInfo entryData
        let key := buildInfo.name ++ "-cached"
        let dirPath := cache.ensureCacheDirectory key
        match installDependencies buildInfo buildInfo.deps vendorPath with
        | .error e => .error e
        | .ok installCmd =>
            .ok [RunStep.extract dirPath, RunStep.install installCmd,
                 RunStep.runMain ("node " ++ pathJoin dirPath buildInfo.main)
                   (pathJoin vendorPath "node_modules")]

/-- The manifest-read phase of TyphRunner.runTyph in isolation (lines
445-450): look up the fixed manifest entry name and decode its JSON. -/
def readManifest (zip : ZipArchive) : Except String BuildInfo :=
  match zip.getEntry TyphonBuildFile with
  | none => .error "No build entry found in typh file."
  | some entryData => .ok (decodeBuildInfo entryData)

end TyphRunner

/-! ### Packager (src/unnamed/part_008, the current revision) -/

namespace Packager

/-- Packager.validateProject (part_008 lines 74-78): a project flagged
`buildinfo.plugin` is refused with a thrown error. -/
def validateProject (projectConfig : Json) : Except String Unit :=
  if getBoolean projectConfig "buildinfo.plugin" false then
    .error "Cannot package plugin project"
  else
    .ok ()

/-- Packager.package: validateProject, then the payload files are added at
their source-root-relative paths, writeBuildInfo appends the manifest entry
under the literal name "typhon.build.json" (part_008 lines 242-245), and
createArchive writes `distDir/packagingName`.  `buildInfo` is the manifest
record assembled at part_008 lines 233-239 from the project configuration.
The success value is the produced archive and its target path. -/
def package (projectConfig : Json) (payload : List (String × Json)) (buildInfo : BuildInfo)
    (distDir packagingName : String) : Except String (ZipArchive × String) :=
  match validateProject projectConfig with
  | .error e => .error e
  | .ok _ =>
      .ok (⟨payload ++ [("typhon.build.json", encodeBuildInfo buildInfo)]⟩,
           pathJoin distDir packagingName)

end Packager

/-! ### PackagePath (src/lib/packager/PackagePath.ts) -/

namespace PackagePath

/-- PackagePath.replace: falsy input is returned as is; the input is split on
every dot; with at most one part the original is returned; otherwise the last
part becomes the file name and the remaining parts are joined with the
platform separator.  (The `path.parse` result the source computes is never
used.) -/
def replace (main : String) : String :=
  if main = "" then main
  else
    let parts := strSplit main '.'
    if parts.length ≤ 1 then main
    else
      let fileName := parts.getLastD ""
      let dirPath := String.intercalate pathSep parts.dropLast
      pathJoin dirPath fileName

end PackagePath

/-! ### CLI commands (src/lib/bin/commands/build.ts, run.ts) -/

/-- A pipeline invocation a command performs after event dispatch. -/
inductive CommandStep
  | packageInvoked
  | runnerInvoked (file : String)
deriving DecidableEq

namespace BuildCommand

/-- BuildCommand.execute (src/lib/bin/commands/build.ts): publish the build
event through the plugin manager; when a plugin cancelled it, return before
packaging; otherwise invoke Packager.package. -/
def execute (plugins : PluginRegistry) (buildCtx : List EventCtx) : List CommandStep :=
  let canceled := TyphonPluginManager.processEvent plugins "build" buildCtx
  if canceled then [] else [CommandStep.packageInvoked]

end BuildCommand

namespace RunCommand

/-- RunCommand.execute (src/lib/bin/commands/run.ts lines 30-49): reject a
file without the .typh extension; publish the run event, binding the result
to `canceled`; then invoke the runner unconditionally — the `canceled`
binding is never consulted afterwards. -/
def execute (plugins : PluginRegistry) (file : String) (runCtx : List EventCtx) : List CommandStep :=
  if !strEndsWith file ".typh" then []
  else
    let _canceled := TyphonPluginManager.processEvent plugins "run" runCtx
    [CommandStep.runnerInvoked file]

end RunCommand

/-! ### Filesystem model for the caching manager (fs-jetpack) -/

/-- The filesystem visible to fs-jetpack, as a path-to-contents map.  Paths
are kept verbatim: the cache reads in part_006 address
`path(cacheDirPath, fileName)` while its write call passes the bare
`fileName`, which fs-jetpack resolves against the process working
directory — a different key. -/
structure FileSystem where
  files : List (String × String)

namespace Jetpack

/-- fs-jetpack `read(path, "utf8")`: contents, or undefined when absent. -/
def read (fs : FileSystem) (p : String) : Option String :=
  Collection.get fs.files p

/-- fs-jetpack `exists(path)` truthiness for a file. -/
def existsPath (fs : FileSystem) (p : String) : Bool :=
  (read fs p).isSome

/-- fs-jetpack `write(path, data)`. -/
def write (fs : FileSystem) (p : String) (data : String) : FileSystem :=
  ⟨Collection.set fs.files p data⟩

end Jetpack

/-- CachingManager.retrieveOrCreateCacheFile (src/unnamed/part_006 lines
32-39): read the cache file at `cacheDirPath/fileName`; when the file is
absent or its contents falsy (an absent read yields undefined; the empty
string is falsy), execute `write(fileName, data ?? "")` — the write path is
the bare `fileName` — and return `data ?? ""`; otherwise return the cached
contents. -/
def CachingManager.retrieveOrCreateCacheFile (c : CachingManager) (fs : FileSystem)
    (fileName : String) (data : Option String) : String × FileSystem :=
  let cachedContent := Jetpack.read fs (pathJoin c.cacheDirPath fileName)
  let contentFalsy :=
    match cachedContent with
    | none => true
    | some s => s == ""
  if !Jetpack.existsPath fs (pathJoin c.cacheDirPath fileName) || contentFalsy then
    (data.getD "", Jetpack.write fs fileName (data.getD ""))
  else
    (cachedContent.getD "", fs)

/-! ### Concrete fixtures used by the theorems below -/

/-- The manifest of the specification's end-to-end scenario. -/
def demoManifest : BuildInfo :=
  { name := "demo", version := "0.0.1", main := "index.js", pm := "npm",
    deps := [("left-pad", "^1.3.0")] }

/-- A project configuration carrying `buildinfo.plugin = true`. -/
def pluginFlaggedConfig : Json :=
  .obj [("buildinfo", .obj [("plugin", .bool true)])]

/-- A registry holding a single cancelling plugin. -/
def cancellerOnlyRegistry : PluginRegistry :=
  TyphonPluginManager.registerPlugin [] cancellingPlugin

/-- Two plugins that share a name and differ in version (and therefore as
plugins). -/
def dupPluginV1 : TyphonPlugin :=
  { pluginInfo := { name := "dup", version := "1.0.0" }
    onEvent := fun _ args => args }

def dupPluginV2 : TyphonPlugin :=
  { pluginInfo := { name := "dup", version := "2.0.0" }
    onEvent := fun _ args => args }

/-- A manifest declaring an unsupported package manager. -/
def bunManifest : BuildInfo :=
  { name := "demo", version := "0.0.1", main := "index.js", pm := "bun", deps := [] }

/-- Claim C1: the claim states that processEvent returns true iff at least one
registered plugin's handler result contains a cancellation flag set to true.
The code violates this: with a passive first plugin and a cancelling second
plugin, the second plugin does signal cancellation yet processEvent returns
false, because the loop returns after consulting only the first plugin; and
the latest revision's processPluginEvent returns true even for a handler that
cancels nothing.  Only the zero-plugin clause of the claim holds. -/
theorem processEvent_consults_only_first_plugin :
    TyphonPluginManager.anyPluginCancels twoPluginRegistry "build" [{ canceled := false }] = true ∧
    TyphonPluginManager.processEvent twoPluginRegistry "build" [{ canceled := false }] = false ∧
    TyphonPluginManager.processEvent [] "build" [{ canceled := false }] = false ∧
    TyphonPluginManager.processPluginEventEmit passivePlugin "build" [{ canceled := false }] = true := by
  refine ⟨rfl, rfl, rfl, rfl⟩

/-- Claim C2: the claim states that the Runner's manifest read of any archive
the Packager produced succeeds and returns the written manifest.  The code
violates this: the Packager stores the manifest under the literal entry name
"typhon.build.json" (part_008 line 243) while the Runner looks up
TyphonBuildFile = "typhbuild.config.json" (Project.ts line 93), so the
manifest read of a produced archive fails with "No build entry found in typh
file."  Evaluated on the end-to-end demo manifest with an empty payload. -/
theorem packager_runner_manifest_entry_names_differ :
    Packager.package (.obj []) [] demoManifest "target" "demo.typh"
      = .ok (⟨[("typhon.build.json", encodeBuildInfo demoManifest)]⟩, "target/demo.typh") ∧
    TyphRunner.readManifest ⟨[("typhon.build.json", encodeBuildInfo demoManifest)]⟩
      = .error "No build entry found in typh file." ∧
    ("typhon.build.json" : String) ≠ TyphonBuildFile := by
  refine ⟨rfl, rfl, by decide⟩

/-- Claim C3: the claim states that a cancelled build event skips packaging
and a cancelled run event prevents the Runner step.  The build half holds
(build.ts checks the flag and returns), but the run half fails on the code:
run.ts binds the dispatch result to `canceled` and never consults it, so the
Runner step is started even when the event was cancelled. -/
theorem run_command_ignores_cancellation :
    (∀ (plugins : PluginRegistry) (ctx : List EventCtx),
        TyphonPluginManager.processEvent plugins "build" ctx = true →
        BuildCommand.execute plugins ctx = []) ∧
    TyphonPluginManager.processEvent cancellerOnlyRegistry "run" [{ canceled := false }] = true ∧
    RunCommand.execute cancellerOnlyRegistry "demo.typh" [{ canceled := false }]
      = [CommandStep.runnerInvoked "demo.typh"] := by
  refine ⟨?_, rfl, ?_⟩
  · intro plugins ctx h
    simp [BuildCommand.execute, h]
  · simp [RunCommand.execute]
    decide

/-- Witness for the build half of the C3 theorem at a concrete cancelling
registry. -/
theorem run_command_ignores_cancellation_witness :
    BuildCommand.execute cancellerOnlyRegistry [{ canceled := false }] = [] :=
  run_command_ignores_cancellation.1 cancellerOnlyRegistry [{ canceled := false }] (by decide)

/-- Claim C4: packaging a project whose configuration carries
`buildinfo.plugin = true` fails with a thrown error ("Cannot package plugin
project", from Packager.validateProject) and never returns a produced
archive. -/
theorem package_refuses_plugin_project (projectConfig : Json)
    (payload : List (String × Json)) (buildInfo : BuildInfo) (distDir packagingName : String)
    (h : getBoolean projectConfig "buildinfo.plugin" false = true) :
    Packager.package projectConfig payload buildInfo distDir packagingName
      = .error "Cannot package plugin project" ∧
    ∀ out, Packager.package projectConfig payload buildInfo distDir packagingName ≠ .ok out := by
  have hv : Packager.validateProject projectConfig = .error "Cannot package plugin project" := by
    simp [Packager.validateProject, h]
  refine ⟨?_, ?_⟩
  · simp [Packager.package, hv]
  · intro out hcontra
    simp [Packager.package, hv] at hcontra

/-- Witness for the C4 theorem on a concrete plugin-flagged configuration. -/
theorem package_refuses_plugin_project_witness :
    Packager.package pluginFlaggedConfig [] demoManifest "target" "demo.typh"
      = .error "Cannot package plugin project" :=
  (package_refuses_plugin_project pluginFlaggedConfig [] demoManifest "target"
    "demo.typh" (by decide)).1

/-- Claim C5: for pm in npm, pnpm and yarn, getInstallCommand returns the
contracted non-null command string; for every other value it returns null
and installDependencies throws "Unsupported package manager" instead of
falling back to a default. -/
theorem getInstallCommand_supported_only (dirPath : String) (deps : List String)
    (buildInfo : BuildInfo) (dependencies : List (String × String)) (vendorPath : String)
    (h₁ : buildInfo.pm ≠ "pnpm") (h₂ : buildInfo.pm ≠ "yarn") (h₃ : buildInfo.pm ≠ "npm") :
    TyphRunner.getInstallCommand "npm" dirPath deps
      = some ("npm install --prefix " ++ dirPath ++ " " ++ String.intercalate " " deps) ∧
    TyphRunner.getInstallCommand "pnpm" dirPath deps
      = some ("pnpm install --prefix " ++ dirPath ++ " " ++ String.intercalate " " deps) ∧
    TyphRunner.getInstallCommand "yarn" dirPath deps
      = some ("yarn install --modules-folder " ++ dirPath ++ "/node_modules "
              ++ String.intercalate " " deps) ∧
    TyphRunner.getInstallCommand buildInfo.pm dirPath deps = none ∧
    TyphRunner.installDependencies buildInfo dependencies vendorPath
      = .error ("Unsupported package manager: " ++ buildInfo.pm) := by
  refine ⟨rfl, rfl, rfl, ?_, ?_⟩
  · simp [TyphRunner.getInstallCommand, h₁, h₂, h₃]
  · simp [TyphRunner.installDependencies, TyphRunner.getInstallCommand, h₁, h₂, h₃]

/-- Witness for the C5 theorem at the unsupported package manager "bun". -/
theorem getInstallCommand_supported_only_witness :
    TyphRunner.getInstallCommand bunManifest.pm "VENDOR" [] = none ∧
    TyphRunner.installDependencies bunManifest [] "VENDOR"
      = .error ("Unsupported package manager: " ++ bunManifest.pm) := by
  have h := getInstallCommand_supported_only "VENDOR" [] bunManifest [] "VENDOR"
    (by decide) (by decide) (by decide)
  exact ⟨h.2.2.2.1, h.2.2.2.2⟩

/-- Claim C6 counterexample: the claim states that every dependency's leading
range operator is stripped, but the code only removes caret characters
(`replaceAll` of the caret), so the tilde range "~1.3.0" reaches the
installer as "left-pad@~1.3.0" instead of the "left-pad@1.3.0" the claim
requires. -/
theorem dependenciesToArray_keeps_tilde :
    TyphRunner.dependenciesToArray [("left-pad", "~1.3.0")] = ["left-pad@~1.3.0"] ∧
    TyphRunner.dependenciesToArray [("left-pad", "~1.3.0")] ≠ ["left-pad@1.3.0"] := by
  refine ⟨by decide, by decide⟩

/-- Claim C6 (amended): every dependency has every caret character removed
from its version before being passed to the installer — other range
operators are passed through unchanged — so in particular a caret range
`^V` with caret-free `V` is converted to the bare `name@V` specifier, for
every dependency in the deps map. -/
theorem dependenciesToArray_strips_leading_caret (name rest : String)
    (tail : List (String × String))
    (h : rest.data.all (fun c => c ≠ '^') = true) :
    TyphRunner.dependenciesToArray ((name, "^" ++ rest) :: tail)
      = (name ++ "@" ++ rest) :: TyphRunner.dependenciesToArray tail := by
  have hfilter : rest.data.filter (fun c => decide (c ≠ '^')) = rest.data := by
    apply List.filter_eq_self.mpr
    intro a ha
    exact List.all_eq_true.mp h a ha
  have hdata : ("^" ++ rest).data = '^' :: rest.data := rfl
  have hrep : replaceAllCaret ("^" ++ rest) = rest := by
    unfold replaceAllCaret
    rw [hdata]
    rw [show List.filter (fun c => decide (c ≠ '^')) ('^' :: rest.data)
          = List.filter (fun c => decide (c ≠ '^')) rest.data from rfl]
    rw [hfilter]
  simp [TyphRunner.dependenciesToArray, hrep]

/-- Witness for the amended C6 theorem on the end-to-end scenario's
dependency. -/
theorem dependenciesToArray_strips_leading_caret_witness :
    TyphRunner.dependenciesToArray [("left-pad", "^" ++ "1.3.0")]
      = ("left-pad" ++ "@" ++ "1.3.0") :: TyphRunner.dependenciesToArray [] :=
  dependenciesToArray_strips_leading_caret "left-pad" "1.3.0" [] (by decide)

/-- Claim C7: runTyph rejects a file name that does not end in ".typh" with a
descriptive error before any extraction, rejects an archive without the
manifest entry likewise, and a run only performs steps (in particular the
extraction step) when both checks passed. -/
theorem runTyph_rejects_before_extraction (cache : CachingManager)
    (vendorPath file : String) (zip : ZipArchive) :
    (strEndsWith file ".typh" = false →
      TyphRunner.runTyph cache vendorPath file zip
        = .error "Unknown file extension: .typh required.") ∧
    (zip.getEntry TyphonBuildFile = none →
      strEndsWith file ".typh" = true →
      TyphRunner.runTyph cache vendorPath file zip
        = .error "No build entry found in typh file.") ∧
    (∀ steps, TyphRunner.runTyph cache vendorPath file zip = .ok steps →
      strEndsWith file ".typh" = true ∧ (zip.getEntry TyphonBuildFile).isSome = true) := by
  refine ⟨?_, ?_, ?_⟩
  · intro h
    simp [TyphRunner.runTyph, h]
  · intro hnone h
    simp [TyphRunner.runTyph, h, hnone]
  · intro steps hok
    by_cases hext : strEndsWith file ".typh"
    · refine ⟨hext, ?_⟩
      cases hmem : zip.getEntry TyphonBuildFile with
      | none => simp [TyphRunner.runTyph, hext, hmem] at hok
      | some j => simp
    · simp [TyphRunner.runTyph, hext] at hok

/-- Witness for the C7 theorem: a manifest-less archive under a correct
extension, and a wrong extension. -/
theorem runTyph_rejects_before_extraction_witness :
    TyphRunner.runTyph ⟨"CACHE"⟩ "VENDOR" "demo.typh" ⟨[]⟩
      = .error "No build entry found in typh file." ∧
    TyphRunner.runTyph ⟨"CACHE"⟩ "VENDOR" "demo.zip" ⟨[]⟩
      = .error "Unknown file extension: .typh required." := by
  refine ⟨?_, ?_⟩
  · exact (runTyph_rejects_before_extraction ⟨"CACHE"⟩ "VENDOR" "demo.typh" ⟨[]⟩).2.1
      rfl (by decide)
  · exact (runTyph_rejects_before_extraction ⟨"CACHE"⟩ "VENDOR" "demo.zip" ⟨[]⟩).1 (by decide)

/-- Claim C8: the claim states that the split-join conversion preserves the
file name and extension, mapping "index.js" to "index.js" and leading the
end-to-end run to execute "demo-cached/index.js".  The code violates this:
splitting on every dot makes the last segment just the extension, so
"index.js" is rewritten to "index/js" and the executed path would be
"demo-cached/index/js". -/
theorem packagePath_replace_splits_the_extension :
    PackagePath.replace "index.js" = "index/js" ∧
    PackagePath.replace "index.js" ≠ "index.js" ∧
    pathJoin "demo-cached" (PackagePath.replace "index.js") = "demo-cached/index/js" := by
  refine ⟨by decide, by decide, by decide⟩

/-- Claim C9: the claim states that retrieveOrCreateCacheFile writes the data
to that cache file on a miss and that an immediately repeated call with the
same name returns the same contents.  The code violates this: it reads the
cache path `cacheDirPath/fileName` but its write call passes the bare
`fileName`, which resolves against the working directory, so the cache file
is never created; a second call with the same name takes the miss branch
again and returns its own `data` argument ("b") rather than the previously
written contents ("a"). -/
theorem retrieveOrCreateCacheFile_writes_outside_cache :
    (CachingManager.retrieveOrCreateCacheFile ⟨"CACHE"⟩ ⟨[]⟩ "scratch.txt" (some "a")).1
      = "a" ∧
    Jetpack.existsPath
      (CachingManager.retrieveOrCreateCacheFile ⟨"CACHE"⟩ ⟨[]⟩ "scratch.txt" (some "a")).2
      (pathJoin "CACHE" "scratch.txt") = false ∧
    Jetpack.read
      (CachingManager.retrieveOrCreateCacheFile ⟨"CACHE"⟩ ⟨[]⟩ "scratch.txt" (some "a")).2
      "scratch.txt" = some "a" ∧
    (CachingManager.retrieveOrCreateCacheFile ⟨"CACHE"⟩
        (CachingManager.retrieveOrCreateCacheFile ⟨"CACHE"⟩ ⟨[]⟩ "scratch.txt" (some "a")).2
        "scratch.txt" (some "b")).1 = "b" := by
  refine ⟨by decide, by decide, by decide, by decide⟩

/-- Collection.set stores the new value under the written key. -/
theorem Collection.get_set (m : List (String × V)) (k : String) (v : V) :
    Collection.get (Collection.set m k v) k = some v := by
  induction m with
  | nil => simp [Collection.set, Collection.get]
  | cons e rest ih =>
      obtain ⟨k₁, v₁⟩ := e
      by_cases hk : k₁ = k
      · simp [Collection.set, Collection.get, hk]
      · simp [Collection.set, Collection.get, hk, ih]

/-- Collection.set over a present key replaces in place and keeps the size. -/
theorem Collection.length_set_of_mem (m : List (String × V)) (k : String) (v : V)
    (h : k ∈ m.map Prod.fst) :
    (Collection.set m k v).length = m.length := by
  induction m with
  | nil => simp at h
  | cons e rest ih =>
      obtain ⟨k₁, v₁⟩ := e
      by_cases hk : k₁ = k
      · simp [Collection.set, hk]
      · rw [List.map_cons] at h
        have hmem : k ∈ rest.map Prod.fst := by
          rcases List.mem_cons.mp h with h₁ | h₁
          · exact absurd h₁.symm hk
          · exact h₁
        simp [Collection.set, hk, ih hmem]

/-- Every value of `Collection.set m k v` is either the new value or a value
of `m` stored under a key other than `k` (keys of `m` distinct). -/
theorem Collection.mem_values_set (m : List (String × V)) (k : String) (v : V)
    (hnodup : (m.map Prod.fst).Nodup) (w : V)
    (hw : w ∈ (Collection.set m k v).map Prod.snd) :
    w = v ∨ ∃ k₂, (k₂, w) ∈ m ∧ k₂ ≠ k := by
  induction m with
  | nil =>
      simp [Collection.set] at hw
      exact Or.inl hw
  | cons e rest ih =>
      obtain ⟨k₁, v₁⟩ := e
      rw [List.map_cons, List.nodup_cons] at hnodup
      by_cases hk : k₁ = k
      · subst hk
        rw [show Collection.set ((k₁, v₁) :: rest) k₁ v = (k₁, v) :: rest from by
              simp [Collection.set]] at hw
        rw [List.map_cons] at hw
        rcases List.mem_cons.mp hw with hw | hw
        · exact Or.inl hw
        · obtain ⟨⟨k₂, w₂⟩, hmem, hsnd⟩ := List.mem_map.mp hw
          have hw₂ : w₂ = w := hsnd
          subst hw₂
          have hk₂ : k₂ ≠ k₁ := by
            intro heq
            subst heq
            exact hnodup.1 (List.mem_map.mpr ⟨(k₂, w₂), hmem, rfl⟩)
          exact Or.inr ⟨k₂, List.mem_cons_of_mem _ hmem, hk₂⟩
      · rw [show Collection.set ((k₁, v₁) :: rest) k v = (k₁, v₁) :: Collection.set rest k v from by
              simp [Collection.set, hk]] at hw
        rw [List.map_cons] at hw
        rcases List.mem_cons.mp hw with hw | hw
        · refine Or.inr ⟨k₁, ?_, hk⟩
          rw [show w = v₁ from hw]
          exact List.mem_cons_self _ _
        · rcases ih hnodup.2 hw with h | ⟨k₂, hmem, hne⟩
          · exact Or.inl h
          · exact Or.inr ⟨k₂, List.mem_cons_of_mem _ hmem, hne⟩

/-- Claim C10: the registry keeps at most one plugin per name — registering a
plugin whose reported name equals an already-registered plugin's name
replaces the previous registration in place: the registry afterwards returns
the new plugin for that name, does not grow, and no longer holds the old
plugin among its values (events are dispatched only to registry values, so
the old plugin no longer receives events). -/
theorem registerPlugin_replaces_same_name (m : PluginRegistry) (old new : TyphonPlugin)
    (hkeys : ∀ e ∈ m, e.1 = e.2.pluginInfo.name)
    (hnodup : (m.map Prod.fst).Nodup)
    (hold : (old.pluginInfo.name, old) ∈ m)
    (hname : new.pluginInfo.name = old.pluginInfo.name)
    (hne : old ≠ new) :
    Collection.get (TyphonPluginManager.registerPlugin m new) old.pluginInfo.name
      = some new ∧
    old ∉ (TyphonPluginManager.registerPlugin m new).map Prod.snd ∧
    (TyphonPluginManager.registerPlugin m new).length = m.length := by
  unfold TyphonPluginManager.registerPlugin TyphonPlugin.getPluginInformation
  rw [hname]
  refine ⟨Collection.get_set m _ new, ?_, ?_⟩
  · intro hmem
    rcases Collection.mem_values_set m old.pluginInfo.name new hnodup old hmem with
      h | ⟨k₂, hm, hne₂⟩
    · exact hne h
    · exact hne₂ (hkeys (k₂, old) hm)
  · apply Collection.length_set_of_mem
    exact List.mem_map.mpr ⟨(old.pluginInfo.name, old), hold, rfl⟩

/-- Witness for the C10 theorem: two concrete plugins sharing the name "dup"
and differing in version. -/
theorem registerPlugin_replaces_same_name_witness :
    Collection.get (TyphonPluginManager.registerPlugin [("dup", dupPluginV1)] dupPluginV2)
        dupPluginV1.pluginInfo.name = some dupPluginV2 ∧
    dupPluginV1 ∉
      (TyphonPluginManager.registerPlugin [("dup", dupPluginV1)] dupPluginV2).map Prod.snd ∧
    (TyphonPluginManager.registerPlugin [("dup", dupPluginV1)] dupPluginV2).length = 1 :=
  registerPlugin_replaces_same_name [("dup", dupPluginV1)] dupPluginV1 dupPluginV2
    (by
      intro e he
      rw [List.mem_singleton] at he
      subst he
      rfl)
    (by simp)
    (List.mem_singleton.mpr rfl)
    rfl
    (by
      intro hcontra
      have hver := congrArg (fun p => p.pluginInfo.version) hcontra
      simp [dupPluginV1, dupPluginV2] at hver)

end Typhon
